import Mathlib

/-!
Verification of the codecrawl metrics engine and asynchronous job client.

The definitions below are a shallow embedding of the TypeScript sources:

* `CodecrawlApp` (job client): `handleError`, `postRequest`/`getRequest`,
  `asyncGenerateLLMsText`, `checkGenerateLLMsTextStatus`, `generateLLMsTxt`.
* `calculateOutputMetrics` and its chunk-splitting loop.
* `TokenCounter.countTokens`.
* the worker module `outputMetricsWorker` (`getTokenCounter` singleton).
* `calculateMetrics`.

JavaScript strings are modelled as `List Char`, JSON-ish response bodies as a
flat record of optional fields, thrown exceptions as `Except`, and the event
ordering of the polling loop (HTTP polls, `setTimeout` sleeps) as an explicit
event trace.
-/

namespace Codecrawl

/-- Truthiness of an optional JS string: `undefined` and the empty string are
falsy, every other string is truthy. -/
def optTruthy : Option String → Bool
  | some s => !(s == "")
  | none => false

/-- Template interpolation of a possibly-undefined JS string value:
interpolating `undefined` produces the text "undefined". -/
def tmplOpt : Option String → String
  | some s => s
  | none => "undefined"

/-- JSON escape of one character, as `JSON.stringify` performs it: quote and
backslash get a backslash escape, the named control characters their short
escapes, the remaining control characters a `\u00XX` escape. -/
def jsonEscapeChar (c : Char) : String :=
  if c = '"' then "\\\""
  else if c = '\\' then "\\\\"
  else if c = '\x08' then "\\b"
  else if c = '\x0c' then "\\f"
  else if c = '\n' then "\\n"
  else if c = '\x0d' then "\\r"
  else if c = '\t' then "\\t"
  else if c.toNat < 32 then
    "\\u00" ++ String.singleton (Nat.digitChar (c.toNat / 16)) ++
      String.singleton (Nat.digitChar (c.toNat % 16))
  else String.singleton c

/-- JSON.stringify of a JSON string value (details payloads are modelled as
string values): wraps the escaped characters in quotes. -/
def jsonStringify (s : String) : String :=
  "\"" ++ String.join (s.data.map jsonEscapeChar) ++ "\""

/-- Flat model of the JSON bodies exchanged with the server: the submit
response `{success, id}`, the status response
`{success, status, data: {llmstxt, llmsfulltxt?}, error?, expiresAt}` and the
error body `{success, error, details?}`. Absent keys are `none`. -/
structure RespData where
  success : Bool := false
  id : Option String := none
  status : Option String := none
  llmstxt : Option String := none
  llmsfulltxt : Option String := none
  error : Option String := none
  details : Option String := none
  expiresAt : Option String := none
deriving DecidableEq

/-- An HTTP response as seen through axios: a numeric status and a parsed
JSON body. -/
structure HttpResponse where
  status : Nat
  data : RespData := {}
deriving DecidableEq

/-- Exceptions thrown by the client code: `CodecrawlError(message, statusCode,
details?)` (the `statusCode` is `none` when the constructor receives
`undefined`), a TypeError raised by reading a property of `undefined`, and an
axios rejection carrying the offending response. -/
inductive JsError where
  | codecrawl (message : String) (statusCode : Option Nat) (details : Option String)
  | typeError (message : String)
  | axiosErr (response : HttpResponse)
deriving DecidableEq

/-- The `.message` property of a thrown error. -/
def jsMessage : JsError → String
  | .codecrawl m _ _ => m
  | .typeError m => m
  | .axiosErr r => "Request failed with status code " ++ toString r.status

/-- The `.response` property of a thrown error: only axios errors carry one. -/
def errResponse : JsError → Option HttpResponse
  | .axiosErr r => some r
  | _ => none

/-- Embedding of `CodecrawlApp.handleError(response, action)`: always throws a
`CodecrawlError`; for the enumerated statuses the message embeds the
server-supplied error text (`response.data.error || 'unknown error occured'`)
and stringified details, otherwise a generic message with the status code. -/
def handleError (response : HttpResponse) (action : String) : Except JsError Unit :=
  if response.status ∈ [400, 402, 402, 408, 409, 500] then
    let errorMessage : String :=
      if optTruthy response.data.error then response.data.error.getD ""
      else "unknown error occured"
    let details : String :=
      if optTruthy response.data.details then
        "- " ++ jsonStringify (response.data.details.getD "")
      else ""
    .error (.codecrawl
      ("Failed to " ++ action ++ ". Status code: " ++ toString response.status ++
        ". Error: " ++ errorMessage ++ details)
      (some response.status) response.data.details)
  else
    .error (.codecrawl
      ("Unexpected error occurred while " ++ action ++ ". Status code: " ++
        toString response.status ++ ".")
      (some response.status) none)

/-- Modelled from the spec: axios `post` (external library) resolves with the
response for 2xx statuses and rejects with an `AxiosError` carrying the
response otherwise (default `validateStatus`). `postRequest` passes this
behaviour through unchanged. -/
def postRequest (resp : HttpResponse) : Except JsError HttpResponse :=
  if 200 ≤ resp.status ∧ resp.status < 300 then .ok resp
  else .error (.axiosErr resp)

/-- Modelled from the spec: axios `get` rejects for non-2xx statuses, but
`getRequest` catches the `AxiosError` and returns `error.response`, so the
caller observes the raw HTTP response whatever its status. -/
def getRequest (resp : HttpResponse) : HttpResponse := resp

/-- The try-block of `asyncGenerateLLMsText`: POST the submission, return the
body on HTTP 200, otherwise delegate to `handleError` (which always throws).
The final `return {success:false, error:'Internal Server Error'}` of the
source is kept as the (unreachable) fall-through value. -/
def asyncGenerateLLMsTextTry (resp : HttpResponse) : Except JsError RespData :=
  match postRequest resp with
  | .error e => .error e
  | .ok r =>
    if r.status = 200 then .ok r.data
    else
      match handleError r "start LLMs.txt generation" with
      | .error e => .error e
      | .ok _ => .ok { success := false, error := some "Internal Server Error" }

/-- The catch-block of `asyncGenerateLLMsText`: if the caught error carries a
response whose body has a truthy `error` field, rethrow a `CodecrawlError`
with that message and status; if it carries a response without one, rethrow
the generic `CodecrawlError` with the response's status code (the else branch
reads `error.response.status`, which succeeds); only when the error has no
`.response` at all (the `CodecrawlError`s thrown by `handleError` inside the
same try) does that read raise a TypeError. -/
def asyncGenerateCatch (e : JsError) : JsError :=
  match errResponse e with
  | some r =>
    if optTruthy r.data.error then
      .codecrawl
        ("Failed to start LLMs.txt generation. Status code: " ++ toString r.status ++
          ". Error: " ++ r.data.error.getD "")
        (some r.status) none
    else
      .codecrawl
        ("Unexpected error occurred while starting LLMs.txt generation. Status code: " ++
          toString r.status ++ ".")
        (some r.status) none
  | none => .typeError "Cannot read properties of undefined (reading 'status')"

/-- Embedding of `CodecrawlApp.asyncGenerateLLMsText`, parameterised by the
HTTP response the submission request produces. -/
def asyncGenerateLLMsText (resp : HttpResponse) : Except JsError RespData :=
  match asyncGenerateLLMsTextTry resp with
  | .ok d => .ok d
  | .error e => .error (asyncGenerateCatch e)

/-- The try-block of `checkGenerateLLMsTextStatus`: HTTP 200 returns the body,
HTTP 404 throws `CodecrawlError('LLMs.txt generation job not found', 404)`,
anything else goes through `handleError`. The trailing
`return {success:false, error:'Internal server error.'}` is the (unreachable)
fall-through value. -/
def checkGenerateLLMsTextStatusTry (resp : HttpResponse) : Except JsError RespData :=
  if resp.status = 200 then .ok resp.data
  else if resp.status = 404 then
    .error (.codecrawl "LLMs.txt generation job not found" (some 404) none)
  else
    match handleError resp "check LLMs.txt generation status" with
    | .error e => .error e
    | .ok _ => .ok { success := false, error := some "Internal server error." }

/-- The catch-block of `checkGenerateLLMsTextStatus`: errors carrying a
response with a truthy body error are re-thrown with that message and status;
every other error (in particular the `CodecrawlError`s thrown inside the same
try-block, which have no `.response`) is re-thrown as
`CodecrawlError(error.message, 500)`. -/
def checkStatusCatch (e : JsError) : JsError :=
  match errResponse e with
  | some r =>
    if optTruthy r.data.error then
      .codecrawl
        ("Request failed with status code " ++ toString r.status ++ ". Error: " ++
          r.data.error.getD "" ++ " " ++
          (if optTruthy r.data.details then
            " - " ++ jsonStringify (r.data.details.getD "") else ""))
        (some r.status) none
    else .codecrawl (jsMessage e) (some 500) none
  | none => .codecrawl (jsMessage e) (some 500) none

/-- Embedding of `CodecrawlApp.checkGenerateLLMsTextStatus`, parameterised by
the HTTP response `getRequest` yields for this poll. -/
def checkGenerateLLMsTextStatus (resp : HttpResponse) : Except JsError RespData :=
  match checkGenerateLLMsTextStatusTry (getRequest resp) with
  | .ok d => .ok d
  | .error e => .error (checkStatusCatch e)

/-- Observable events of a `generateLLMsTxt` run: one `pollCall` per
`checkGenerateLLMsTextStatus` HTTP call and one `sleepMs` per
`setTimeout` delay. -/
inductive Ev where
  | pollCall (idx : Nat)
  | sleepMs (ms : Nat)
deriving DecidableEq

/-- Outcome of a `generateLLMsTxt` run: a returned body, a thrown error, or
the marker that the finite list of modelled poll responses was exhausted
while the loop was still polling. -/
inductive RunOutcome where
  | ok (resp : RespData)
  | err (e : JsError)
  | outOfPolls
deriving DecidableEq

/-- The `while (true)` polling loop of `generateLLMsTxt`, consuming one HTTP
response per iteration: return the body on an error-shaped body or on
`completed`; throw on `failed` (note the source interpolates the *status
string* into "Status code:" and reads the nonexistent
`generationStatus.statusCode`, hence the `none` status code); break with the
"unexpected status" error body on any other status; otherwise sleep 2000ms
and poll again. -/
def pollLoop : List HttpResponse → Nat → RunOutcome × List Ev
  | [], _ => (.outOfPolls, [])
  | httpResp :: rest, idx =>
    match checkGenerateLLMsTextStatus httpResp with
    | .error e => (.err e, [.pollCall idx])
    | .ok generationStatus =>
      if generationStatus.error.isSome && !generationStatus.success then
        (.ok generationStatus, [.pollCall idx])
      else if generationStatus.status == some "completed" then
        (.ok generationStatus, [.pollCall idx])
      else if generationStatus.status == some "failed" then
        (.err (.codecrawl
          ("LLMs.txt generation failed. Status code: " ++ tmplOpt generationStatus.status ++
            ". Error: " ++ tmplOpt generationStatus.error)
          none none), [.pollCall idx])
      else if !(generationStatus.status == some "processing") then
        (.ok { success := false,
               error := some ("LLMs.txt generation ended with unexpected status: " ++
                 generationStatus.status.getD "unknown") }, [.pollCall idx])
      else
        let next := pollLoop rest (idx + 1)
        (next.1, .pollCall idx :: .sleepMs 2000 :: next.2)

/-- The try-block of `generateLLMsTxt`: submit, then the guard
`if (response.success || 'error' in response)` returns an error body, then
the missing-job-id check, then the polling loop. -/
def generateLLMsTxtTry (submitResp : HttpResponse) (polls : List HttpResponse) :
    RunOutcome × List Ev :=
  match asyncGenerateLLMsText submitResp with
  | .error e => (.err e, [])
  | .ok response =>
    if response.success || response.error.isSome then
      (.ok { success := false,
             error := if response.error.isSome then response.error
               else some "unknown error" }, [])
    else if !(optTruthy response.id) then
      (.err (.codecrawl "Failed to start LLMs.txt generation. No job ID returned"
        (some 500) none), [])
    else
      pollLoop polls 0

/-- Embedding of `CodecrawlApp.generateLLMsTxt`, parameterised by the HTTP
response of the submission request and the sequence of HTTP responses the
successive status polls produce. The outer catch re-wraps any thrown error as
`CodecrawlError(error.message, 500, error.response?.data?.details)`. -/
def generateLLMsTxt (submitResp : HttpResponse) (polls : List HttpResponse) :
    RunOutcome × List Ev :=
  let run := generateLLMsTxtTry submitResp polls
  match run.1 with
  | .err e =>
    (.err (.codecrawl (jsMessage e) (some 500)
      ((errResponse e).bind (fun r => r.data.details))), run.2)
  | out => (out, run.2)

/-- A task sent to the output-metrics worker: `{content, encoding, path?}`.
Content is a JS string modelled as `List Char`. -/
structure OutputMetricsTask where
  content : List Char
  encoding : String
  path : Option String
deriving DecidableEq

/-- The constant `CHUNK_SIZE = 1000` of `calculateOutputMetrics.ts` (the fixed
number of parallel chunks `K`). -/
def CHUNK_SIZE : Nat := 1000

/-- The constant `MIN_CONTENT_LENGTH_FOR_PARALLEL = 1_000_000`. -/
def MIN_CONTENT_LENGTH_FOR_PARALLEL : Nat := 1000000

/-- The chunk-splitting `for` loop of `calculateOutputMetrics`:
`for (let i = 0; i < content.length; i += chunkSize) chunks.push(content.slice(i, i + chunkSize))`,
written as take/drop recursion. A zero step (which only arises for empty
content, where the loop body never runs) yields no chunks. -/
def sliceLoop (c : Nat) (l : List Char) : List (List Char) :=
  if _hc : c = 0 then []
  else if _hl : l = [] then []
  else l.take c :: sliceLoop c (l.drop c)
termination_by l.length
decreasing_by
  simp only [List.length_drop]
  have : l.length ≠ 0 := fun h => _hl (List.eq_nil_of_length_eq_zero h)
  omega

/-- The indexed map `chunks.map((chunk, index) => ({content: chunk, encoding,
path: path ? path-chunk-index : undefined}))`, building one worker task per
chunk with the chunk index appended to the original label when the label is
truthy (JS truthiness: an absent or empty label leaves the chunk unlabeled).
-/
def labelTasks (encoding : String) (path : Option String) :
    Nat → List (List Char) → List OutputMetricsTask
  | _, [] => []
  | i, ch :: rest =>
    { content := ch, encoding := encoding,
      path := if optTruthy path then some (path.getD "" ++ "-chunk-" ++ toString i)
        else none } ::
      labelTasks encoding path (i + 1) rest

deriving instance DecidableEq for Except

/-- Observable behaviour of one `calculateOutputMetrics` call:
the concurrency passed to `initTaskRunner` (and hence to `initPiscina`,
modelled from the spec: `initPiscina(n, workerFile)` creates or reuses a
worker pool of `n` workers and `pool.run(task)` executes the task on a pool
worker), the tasks submitted through `pool.run`, and the value returned or
error thrown. -/
structure MetricsRun where
  poolConcurrency : Nat
  poolTasks : List OutputMetricsTask
  result : Except String Nat
deriving DecidableEq

/-- Embedding of `calculateOutputMetrics(content, encoding, path?)`,
parameterised by the worker-task oracle `runTask` (a `pool.run` that either
resolves with a count or rejects). Parallel iff
`content.length > MIN_CONTENT_LENGTH_FOR_PARALLEL`; `numOfTasks` is
`CHUNK_SIZE` when parallel and `1` otherwise; `chunkSize` is
`Math.ceil(content.length / CHUNK_SIZE)`; `Promise.all` rejects with the
first rejection (no partial aggregation) and the `catch` rethrows it
unchanged; on success the chunk counts are summed by
`reduce((sum, count) => sum + count, 0)`. -/
def calculateOutputMetrics (content : List Char) (encoding : String)
    (path : Option String) (runTask : OutputMetricsTask → Except String Nat) :
    MetricsRun :=
  if MIN_CONTENT_LENGTH_FOR_PARALLEL < content.length then
    let chunkSize := (content.length + CHUNK_SIZE - 1) / CHUNK_SIZE
    let chunks := sliceLoop chunkSize content
    let tasks := labelTasks encoding path 0 chunks
    { poolConcurrency := CHUNK_SIZE
      poolTasks := tasks
      result :=
        match tasks.mapM runTask with
        | .ok chunkResults => .ok (chunkResults.foldl (fun sum count => sum + count) 0)
        | .error e => .error e }
  else
    { poolConcurrency := 1
      poolTasks := [{ content := content, encoding := encoding, path := path }]
      result := runTask { content := content, encoding := encoding, path := path } }

/-- Result of `TokenCounter.countTokens`: the returned count plus the warning
lines emitted through the logger. -/
structure CountResult where
  count : Nat
  logs : List String
deriving DecidableEq

/-- Embedding of `TokenCounter.countTokens(content, filePath?)`. The bound
tiktoken instance is the oracle `encode`, which either yields the token list
or fails with an error message. A failure is caught: a warning naming the
file path (when truthy) is logged and 0 is returned; the function itself is
total, so no failure propagates. -/
def countTokens (encode : List Char → Except String (List Nat))
    (content : List Char) (filePath : Option String) : CountResult :=
  match encode content with
  | .ok toks => { count := toks.length, logs := [] }
  | .error message =>
    { count := 0
      logs := [if optTruthy filePath then
          "Failed to count tokens. path: " ++ filePath.getD "" ++ ", error: " ++ message
        else
          "Failed to count tokens. error: " ++ message] }

/-- A `TokenCounter` instance: the encoding is bound at construction
(`this.encoding = get_encoding(encodingName)`) and never changes. -/
structure TokenCounter where
  encoding : String
deriving DecidableEq

/-- Embedding of the worker module's `getTokenCounter`: the module-level
`tokenCounter` variable is the `Option TokenCounter` state; a counter is
created lazily on first use, and once created it is returned for every later
call whatever encoding that call requests. -/
def getTokenCounter (st : Option TokenCounter) (encoding : String) :
    TokenCounter × Option TokenCounter :=
  match st with
  | none => ({ encoding := encoding }, some { encoding := encoding })
  | some c => (c, some c)

/-- A worker processing a sequence of tasks with the default export of
`outputMetricsWorker.ts`: each task fetches the singleton counter for its
requested encoding and counts with `counter.countTokens(content, path)`
(tokenizing with the *counter's* bound encoding, via the tokenizer family
`encodeFam`). Returns the (counter, count) pair per task plus the final
module state. -/
def runWorkerTasks (encodeFam : String → List Char → Except String (List Nat)) :
    Option TokenCounter → List OutputMetricsTask →
    List (TokenCounter × Nat) × Option TokenCounter
  | st, [] => ([], st)
  | st, t :: ts =>
    let step := getTokenCounter st t.encoding
    let n := (countTokens (encodeFam step.1.encoding) t.content t.path).count
    let rest := runWorkerTasks encodeFam step.2 ts
    ((step.1, n) :: rest.1, rest.2)

/-- A processed file record `{path, content}` handed to the metrics engine. -/
structure ProcessedFile where
  path : String
  content : List Char

/-- Per-file metrics record produced by the file-metrics pass. -/
structure FileMetrics where
  path : String
  charCount : Nat
  tokenCount : Nat

/-- Modelled from the spec: `calculateAllFileMetrics` (its source file is not
under src/; §2 and §6 of the spec describe the external per-file aggregation)
produces one per-file record per input file, in order, carrying that file's
path, character count and token count. -/
def calculateAllFileMetrics (processedFiles : List ProcessedFile)
    (countTok : List Char → Nat) : List FileMetrics :=
  processedFiles.map (fun f =>
    { path := f.path, charCount := f.content.length, tokenCount := countTok f.content })

/-- JS object property assignment `obj[k] = v` on a string-keyed record,
modelled on an insertion-ordered association list: overwrite in place when
the key exists, append otherwise. -/
def recordSet (m : List (String × Nat)) (k : String) (v : Nat) :
    List (String × Nat) :=
  if m.any (fun kv => kv.1 == k) then
    m.map (fun kv => if kv.1 == k then (k, v) else kv)
  else m ++ [(k, v)]

/-- The `CalculateMetricsResult` interface of `calculateMetrics.ts`; the two
`Record<string, number>` maps are insertion-ordered association lists. -/
structure CalculateMetricsResult where
  totalFiles : Nat
  totalCharacters : Nat
  totalTokens : Nat
  fileCharCounts : List (String × Nat)
  fileTokenCounts : List (String × Nat)

/-- Embedding of `calculateMetrics(processedFiles, output, ...)`. The per-file
pass and the output token count run concurrently and are joined; here the
already-joined output token count is the `outputTokens` argument, and the
single `for` loop that fills both records is written as one fold per record.
-/
def calculateMetrics (processedFiles : List ProcessedFile) (output : List Char)
    (countTok : List Char → Nat) (outputTokens : Nat) : CalculateMetricsResult :=
  let fileMetrics := calculateAllFileMetrics processedFiles countTok
  { totalFiles := processedFiles.length
    totalCharacters := output.length
    totalTokens := outputTokens
    fileCharCounts :=
      fileMetrics.foldl (fun acc file => recordSet acc file.path file.charCount) []
    fileTokenCounts :=
      fileMetrics.foldl (fun acc file => recordSet acc file.path file.tokenCount) [] }

/-- Submission response of the happy-path scenario: HTTP 200 with
`{success: true, id: "job-123"}`. -/
def submitOkTrue : HttpResponse :=
  { status := 200, data := { success := true, id := some "job-123" } }

/-- Submission response whose body has `success: false` but still carries the
job id and no error field. -/
def submitSuccessFalse : HttpResponse :=
  { status := 200, data := { success := false, id := some "job-123" } }

/-- Status poll response: HTTP 200, `status: "processing"`. -/
def pollProcessing : HttpResponse :=
  { status := 200, data := { success := true, status := some "processing" } }

/-- Status poll response: HTTP 200, `status: "completed"` with a result
payload. -/
def pollCompleted : HttpResponse :=
  { status := 200,
    data := { success := true, status := some "completed", llmstxt := some "# docs" } }

/-- Every call to `handleError` throws a `CodecrawlError`. -/
theorem handleError_isError (response : HttpResponse) (action : String) :
    ∃ m sc d, handleError response action = .error (.codecrawl m sc d) := by
  unfold handleError
  split
  · exact ⟨_, _, _, rfl⟩
  · exact ⟨_, _, _, rfl⟩

/-- The duplicated 402 in the source's status list does not change membership. -/
theorem mem_handleError_list (n : Nat) :
    n ∈ [400, 402, 402, 408, 409, 500] ↔ n ∈ [400, 402, 408, 409, 500] := by
  simp only [List.mem_cons, List.not_mem_nil, or_false]
  tauto

/-- On any non-200 submission response, `asyncGenerateLLMsText` throws. -/
theorem asyncGenerateLLMsText_raises (response : HttpResponse)
    (hne : response.status ≠ 200) :
    ∃ e, asyncGenerateLLMsText response = .error e := by
  obtain ⟨m, sc, d, hh⟩ := handleError_isError response "start LLMs.txt generation"
  by_cases h2 : 200 ≤ response.status ∧ response.status < 300
  · simp only [asyncGenerateLLMsText, asyncGenerateLLMsTextTry, postRequest,
      if_pos h2, if_neg hne, hh]
    exact ⟨_, rfl⟩
  · simp only [asyncGenerateLLMsText, asyncGenerateLLMsTextTry, postRequest, if_neg h2]
    exact ⟨_, rfl⟩

/-- C10: `handleError` always raises a `CodecrawlError`; for statuses in
{400, 402, 408, 409, 500} its message carries the server-supplied error text
and stringified details and the error carries the status code and details,
while any other status yields the generic message with the status code.
Consequently `asyncGenerateLLMsText` either returns the HTTP-200 response
body or raises. -/
theorem handleError_classifies_and_asyncGenerateLLMsText_total :
    ∀ (response : HttpResponse) (action : String),
    (∃ m sc d, handleError response action = .error (.codecrawl m sc d)) ∧
    (response.status ∈ [400, 402, 408, 409, 500] →
      handleError response action = .error (.codecrawl
        ("Failed to " ++ action ++ ". Status code: " ++ toString response.status ++
          ". Error: " ++
          (if optTruthy response.data.error then response.data.error.getD ""
            else "unknown error occured") ++
          (if optTruthy response.data.details then
            "- " ++ jsonStringify (response.data.details.getD "") else ""))
        (some response.status) response.data.details)) ∧
    (response.status ∉ [400, 402, 408, 409, 500] →
      handleError response action = .error (.codecrawl
        ("Unexpected error occurred while " ++ action ++ ". Status code: " ++
          toString response.status ++ ".")
        (some response.status) none)) ∧
    (response.status = 200 → asyncGenerateLLMsText response = .ok response.data) ∧
    (response.status ≠ 200 → ∃ e, asyncGenerateLLMsText response = .error e) := by
  intro response action
  refine ⟨handleError_isError response action, ?_, ?_, ?_, asyncGenerateLLMsText_raises response⟩
  · intro hmem
    have h6 := (mem_handleError_list response.status).mpr hmem
    simp only [handleError, if_pos h6]
  · intro hmem
    have h6 : response.status ∉ [400, 402, 402, 408, 409, 500] :=
      fun h => hmem ((mem_handleError_list response.status).mp h)
    simp only [handleError, if_neg h6]
  · intro h200
    simp [asyncGenerateLLMsText, asyncGenerateLLMsTextTry, postRequest, h200]

/-- C10 witness: at HTTP 400 with a server error message, `handleError`
raises a `CodecrawlError` and `asyncGenerateLLMsText` raises as well. -/
theorem handleError_classifies_witness :
    (∃ m sc d, handleError { status := 400, data := { error := some "Bad" } } "start" =
      .error (.codecrawl m sc d)) ∧
    (∃ e, asyncGenerateLLMsText { status := 400, data := { error := some "Bad" } } =
      .error e) :=
  ⟨(handleError_classifies_and_asyncGenerateLLMsText_total
      { status := 400, data := { error := some "Bad" } } "start").1,
    (handleError_classifies_and_asyncGenerateLLMsText_total
      { status := 400, data := { error := some "Bad" } } "start").2.2.2.2 (by decide)⟩

/-- C7 counterexample: on an HTTP 404 poll the raised failure is the
`CodecrawlError` with message "LLMs.txt generation job not found" but status
code 500 (the in-try `throw` with 404 is re-wrapped by the function's own
catch), so no job-not-found failure carrying status code 404 is raised. -/
theorem checkStatus_404_carries_500_not_404 :
    checkGenerateLLMsTextStatus { status := 404 } =
      .error (.codecrawl "LLMs.txt generation job not found" (some 500) none) ∧
    ¬ ∃ m d, checkGenerateLLMsTextStatus { status := 404 } =
      .error (.codecrawl m (some 404) d) := by
  refine ⟨rfl, ?_⟩
  rintro ⟨m, d, h⟩
  rw [show checkGenerateLLMsTextStatus { status := 404 } =
    .error (.codecrawl "LLMs.txt generation job not found" (some 500) none) from rfl] at h
  simp at h

/-- C7 amended: on any HTTP 404 poll response, `checkGenerateLLMsTextStatus`
raises the "job not found" `CodecrawlError` carrying status code 500, and the
polling loop stops at that poll: exactly one poll event, nothing after. -/
theorem checkStatus_404_fatal_no_further_polls :
    ∀ (d : RespData) (rest : List HttpResponse) (idx : Nat),
    checkGenerateLLMsTextStatus { status := 404, data := d } =
      .error (.codecrawl "LLMs.txt generation job not found" (some 500) none) ∧
    pollLoop ({ status := 404, data := d } :: rest) idx =
      (.err (.codecrawl "LLMs.txt generation job not found" (some 500) none),
        [Ev.pollCall idx]) :=
  fun _ _ _ => ⟨rfl, rfl⟩

/-- C9: a poll whose HTTP-200 body reports a status outside
{processing, completed, failed} makes the loop exit at once with the explicit
"unexpected status" failure body: one poll event, no sleep, no further polls
whatever responses follow. -/
theorem pollLoop_unexpected_status_exits :
    ∀ (r : HttpResponse) (rest : List HttpResponse) (idx : Nat) (s : String),
    r.status = 200 → r.data.success = true → r.data.status = some s →
    s ≠ "processing" → s ≠ "completed" → s ≠ "failed" →
    pollLoop (r :: rest) idx =
      (.ok { success := false,
             error := some ("LLMs.txt generation ended with unexpected status: " ++ s) },
        [Ev.pollCall idx]) := by
  intro r rest idx s h200 hsucc hst h1 h2 h3
  have hc : checkGenerateLLMsTextStatus r = .ok r.data := by
    simp [checkGenerateLLMsTextStatus, checkGenerateLLMsTextStatusTry, getRequest, h200]
  simp [pollLoop, hc, hsucc, hst, h1, h2, h3]

/-- C9 witness: a poll reporting status "enqueued" exits the loop with the
"unexpected status" failure after exactly one poll. -/
theorem pollLoop_unexpected_status_exits_witness :
    pollLoop [{ status := 200, data := { success := true, status := some "enqueued" } }] 0 =
      (.ok { success := false,
             error := some ("LLMs.txt generation ended with unexpected status: " ++ "enqueued") },
        [Ev.pollCall 0]) :=
  pollLoop_unexpected_status_exits
    { status := 200, data := { success := true, status := some "enqueued" } } [] 0 "enqueued"
    rfl rfl rfl (by decide) (by decide) (by decide)

/-- C1: on the happy-path scenario (submission succeeds: HTTP 200 with
`{success: true, id: "job-123"}`; polls would report processing, processing,
completed) `generateLLMsTxt` returns the error body
`{success: false, error: "unknown error"}` without making a single poll, and
in particular never returns the completed status response: the guard
`if (response.success || 'error' in response)` discards every successful
submission. -/
theorem generateLLMsTxt_drops_successful_submission :
    generateLLMsTxt submitOkTrue [pollProcessing, pollProcessing, pollCompleted] =
      (.ok { success := false, error := some "unknown error" }, []) ∧
    ¬ ∃ d, (generateLLMsTxt submitOkTrue [pollProcessing, pollProcessing, pollCompleted]).1 =
        .ok d ∧ d.status = some "completed" := by
  refine ⟨rfl, ?_⟩
  rintro ⟨d, hd, hs⟩
  rw [show (generateLLMsTxt submitOkTrue [pollProcessing, pollProcessing, pollCompleted]).1 =
    .ok { success := false, error := some "unknown error" } from rfl] at hd
  injection hd with h
  rw [← h] at hs
  exact absurd hs (by decide)

/-- Supporting fact: when the submission body instead has `success: false`
with a job id (the only shape that passes the inverted guard), the loop does
behave as the spec describes: three polls with a 2000ms sleep between
consecutive polls, returning the completed body. -/
theorem generateLLMsTxt_polls_when_success_false :
    generateLLMsTxt submitSuccessFalse [pollProcessing, pollProcessing, pollCompleted] =
      (.ok { success := true, status := some "completed", llmstxt := some "# docs" },
        [Ev.pollCall 0, Ev.sleepMs 2000, Ev.pollCall 1, Ev.sleepMs 2000, Ev.pollCall 2]) :=
  rfl

/-- Unfolding: splitting the empty content yields no chunks. -/
theorem sliceLoop_nil (c : Nat) : sliceLoop c [] = [] := by
  unfold sliceLoop
  simp

/-- Unfolding: one loop iteration pushes `content.slice(i, i + chunkSize)` and
continues at `i + chunkSize`. -/
theorem sliceLoop_of_ne {c : Nat} (hc : c ≠ 0) {l : List Char} (hl : l ≠ []) :
    sliceLoop c l = l.take c :: sliceLoop c (l.drop c) := by
  conv_lhs => unfold sliceLoop
  rw [dif_neg hc, dif_neg hl]

/-- The chunks concatenate, in order, back to the original content. -/
theorem sliceLoop_join (c : Nat) (hc : 0 < c) (l : List Char) :
    (sliceLoop c l).flatten = l := by
  have hcne : c ≠ 0 := by omega
  have H : ∀ (n : Nat) (l : List Char), l.length ≤ n → (sliceLoop c l).flatten = l := by
    intro n
    induction n with
    | zero =>
      intro l hl
      have h0 : l = [] := List.eq_nil_of_length_eq_zero (Nat.le_zero.mp hl)
      subst h0
      rw [sliceLoop_nil]
      rfl
    | succ n ih =>
      intro l hl
      by_cases h0 : l = []
      · subst h0; rw [sliceLoop_nil]; rfl
      · rw [sliceLoop_of_ne hcne h0, List.flatten_cons,
          ih (l.drop c) (by
            simp only [List.length_drop]
            have := List.length_pos.mpr h0
            omega),
          List.take_append_drop]
  exact H l.length l le_rfl

/-- The number of chunks is `ceil(length / chunkSize)`. -/
theorem sliceLoop_length (c : Nat) (hc : 0 < c) (l : List Char) :
    (sliceLoop c l).length = (l.length + c - 1) / c := by
  have hcne : c ≠ 0 := by omega
  have H : ∀ (n : Nat) (l : List Char), l.length ≤ n →
      (sliceLoop c l).length = (l.length + c - 1) / c := by
    intro n
    induction n with
    | zero =>
      intro l hl
      have h0 : l = [] := List.eq_nil_of_length_eq_zero (Nat.le_zero.mp hl)
      subst h0
      rw [sliceLoop_nil]
      simp only [List.length_nil, Nat.zero_add]
      rw [Nat.div_eq_of_lt (by omega)]
    | succ n ih =>
      intro l hl
      by_cases h0 : l = []
      · subst h0
        rw [sliceLoop_nil]
        simp only [List.length_nil, Nat.zero_add]
        rw [Nat.div_eq_of_lt (by omega)]
      · have hm : 0 < l.length := List.length_pos.mpr h0
        rw [sliceLoop_of_ne hcne h0]
        simp only [List.length_cons]
        rw [ih (l.drop c) (by simp only [List.length_drop]; omega)]
        simp only [List.length_drop]
        rcases le_or_lt l.length c with hle | hlt
        · have e1 : l.length - c + c - 1 = c - 1 := by omega
          have e2 : l.length + c - 1 = (l.length - 1) + c := by omega
          rw [e1, e2, Nat.add_div_right _ hc,
            Nat.div_eq_of_lt (show c - 1 < c by omega),
            Nat.div_eq_of_lt (show l.length - 1 < c by omega)]
        · have e1 : l.length - c + c - 1 = l.length - 1 := by omega
          have e2 : l.length + c - 1 = (l.length - 1) + c := by omega
          rw [e1, e2, Nat.add_div_right _ hc]
  exact H l.length l le_rfl

/-- Every chunk except possibly the last has exactly `chunkSize` characters. -/
theorem sliceLoop_dropLast_length (c : Nat) (hc : 0 < c) :
    ∀ (l : List Char), ∀ ch ∈ (sliceLoop c l).dropLast, ch.length = c := by
  have hcne : c ≠ 0 := by omega
  have H : ∀ (n : Nat) (l : List Char), l.length ≤ n →
      ∀ ch ∈ (sliceLoop c l).dropLast, ch.length = c := by
    intro n
    induction n with
    | zero =>
      intro l hl ch hch
      have h0 : l = [] := List.eq_nil_of_length_eq_zero (Nat.le_zero.mp hl)
      subst h0
      rw [sliceLoop_nil] at hch
      simp at hch
    | succ n ih =>
      intro l hl ch hch
      by_cases h0 : l = []
      · subst h0; rw [sliceLoop_nil] at hch; simp at hch
      · rw [sliceLoop_of_ne hcne h0] at hch
        by_cases hd : l.drop c = []
        · rw [hd, sliceLoop_nil] at hch
          simp at hch
        · have hlen : c < l.length := by
            by_contra hle
            exact hd (List.drop_eq_nil_of_le (by omega))
          rw [sliceLoop_of_ne hcne hd, List.dropLast_cons₂,
            ← sliceLoop_of_ne hcne hd] at hch
          rcases List.mem_cons.mp hch with he | ht
          · rw [he, List.length_take]
            omega
          · exact ih (l.drop c) (by simp only [List.length_drop]; omega) ch ht
  intro l
  exact H l.length l le_rfl

/-- Every chunk has at most `chunkSize` characters. -/
theorem sliceLoop_length_le (c : Nat) (hc : 0 < c) :
    ∀ (l : List Char), ∀ ch ∈ sliceLoop c l, ch.length ≤ c := by
  have hcne : c ≠ 0 := by omega
  have H : ∀ (n : Nat) (l : List Char), l.length ≤ n →
      ∀ ch ∈ sliceLoop c l, ch.length ≤ c := by
    intro n
    induction n with
    | zero =>
      intro l hl ch hch
      have h0 : l = [] := List.eq_nil_of_length_eq_zero (Nat.le_zero.mp hl)
      subst h0
      rw [sliceLoop_nil] at hch
      simp at hch
    | succ n ih =>
      intro l hl ch hch
      by_cases h0 : l = []
      · subst h0; rw [sliceLoop_nil] at hch; simp at hch
      · rw [sliceLoop_of_ne hcne h0] at hch
        rcases List.mem_cons.mp hch with he | ht
        · rw [he, List.length_take]
          omega
        · have hm : 0 < l.length := List.length_pos.mpr h0
          exact ih (l.drop c) (by simp only [List.length_drop]; omega) ch ht
  intro l
  exact H l.length l le_rfl

/-- One worker task is built per chunk. -/
theorem labelTasks_length (encoding : String) (path : Option String) :
    ∀ (i : Nat) (chs : List (List Char)),
    (labelTasks encoding path i chs).length = chs.length := by
  intro i chs
  induction chs generalizing i with
  | nil => rfl
  | cons ch rest ih => simp [labelTasks, ih]

/-- The task contents are exactly the chunks, in order. -/
theorem labelTasks_map_content (encoding : String) (path : Option String) :
    ∀ (i : Nat) (chs : List (List Char)),
    (labelTasks encoding path i chs).map OutputMetricsTask.content = chs := by
  intro i chs
  induction chs generalizing i with
  | nil => rfl
  | cons ch rest ih => simp [labelTasks, ih]

/-- The task labels are the original label, when truthy, with the running
chunk index appended; unlabeled otherwise. -/
theorem labelTasks_map_path (encoding : String) (path : Option String) :
    ∀ (i : Nat) (chs : List (List Char)),
    (labelTasks encoding path i chs).map OutputMetricsTask.path =
      (List.range' i chs.length).map
        (fun j => if optTruthy path then some (path.getD "" ++ "-chunk-" ++ toString j)
          else none) := by
  intro i chs
  induction chs generalizing i with
  | nil => rfl
  | cons ch rest ih => simp [labelTasks, List.range', ih]

/-- Bounds on `chunkSize = ceil(n / 1000)` above the parallel threshold:
it is positive, 999 full chunks do not cover the content, 1000 do. -/
theorem parallel_chunk_bounds (n : Nat) (hn : MIN_CONTENT_LENGTH_FOR_PARALLEL < n) :
    0 < (n + CHUNK_SIZE - 1) / CHUNK_SIZE ∧
    999 * ((n + CHUNK_SIZE - 1) / CHUNK_SIZE) < n ∧
    n ≤ 1000 * ((n + CHUNK_SIZE - 1) / CHUNK_SIZE) := by
  unfold MIN_CONTENT_LENGTH_FOR_PARALLEL at hn
  unfold CHUNK_SIZE
  omega

/-- Above the parallel threshold the loop produces exactly 1000 chunks. -/
theorem chunk_count_eq (n : Nat) (hn : MIN_CONTENT_LENGTH_FOR_PARALLEL < n) :
    (n + (n + CHUNK_SIZE - 1) / CHUNK_SIZE - 1) / ((n + CHUNK_SIZE - 1) / CHUNK_SIZE) =
      1000 := by
  obtain ⟨hc, h999, h1000⟩ := parallel_chunk_bounds n hn
  have hub : (n + (n + CHUNK_SIZE - 1) / CHUNK_SIZE - 1) / ((n + CHUNK_SIZE - 1) / CHUNK_SIZE) <
      1001 := (Nat.div_lt_iff_lt_mul hc).mpr (by omega)
  have hlb : 1000 ≤
      (n + (n + CHUNK_SIZE - 1) / CHUNK_SIZE - 1) / ((n + CHUNK_SIZE - 1) / CHUNK_SIZE) :=
    (Nat.le_div_iff_mul_le hc).mpr (by omega)
  omega

/-- Shape of a parallel-path `calculateOutputMetrics` call. -/
theorem calculateOutputMetrics_parallel_def (content : List Char) (encoding : String)
    (path : Option String) (runTask : OutputMetricsTask → Except String Nat)
    (h : MIN_CONTENT_LENGTH_FOR_PARALLEL < content.length) :
    calculateOutputMetrics content encoding path runTask =
      { poolConcurrency := CHUNK_SIZE
        poolTasks := labelTasks encoding path 0
          (sliceLoop ((content.length + CHUNK_SIZE - 1) / CHUNK_SIZE) content)
        result :=
          match (labelTasks encoding path 0
              (sliceLoop ((content.length + CHUNK_SIZE - 1) / CHUNK_SIZE) content)).mapM
              runTask with
          | .ok chunkResults => .ok (chunkResults.foldl (fun sum count => sum + count) 0)
          | .error e => .error e } := by
  simp only [calculateOutputMetrics, if_pos h]

/-- Summing a list of counts with the source's `reduce` equals `List.sum`. -/
theorem foldl_add_eq_sum (l : List Nat) :
    l.foldl (fun sum count => sum + count) 0 = l.sum := by
  have H : ∀ (l : List Nat) (a : Nat), l.foldl (fun sum count => sum + count) a = a + l.sum := by
    intro l
    induction l with
    | nil => intro a; simp
    | cons x xs ih => intro a; simp [ih]; omega
  rw [H l 0, Nat.zero_add]

/-- C2 counterexample: content of length 3 (far below the threshold) is still
submitted through the worker pool: the pool is initialised with concurrency 1
and the whole content runs as one `pool.run` task, so the sequential path
does involve the worker pool. -/
theorem calculateOutputMetrics_small_content_uses_pool :
    (calculateOutputMetrics ['a', 'b', 'c'] "cl100k_base" none
        (fun _ => Except.ok 3)).poolTasks =
      [{ content := ['a', 'b', 'c'], encoding := "cl100k_base", path := none }] ∧
    (calculateOutputMetrics ['a', 'b', 'c'] "cl100k_base" none
        (fun _ => Except.ok 3)).poolTasks ≠ [] ∧
    (calculateOutputMetrics ['a', 'b', 'c'] "cl100k_base" none
        (fun _ => Except.ok 3)).poolConcurrency = 1 ∧
    (['a', 'b', 'c'] : List Char).length ≤ MIN_CONTENT_LENGTH_FOR_PARALLEL := by
  decide

/-- C2 amended: for content at most the threshold, `calculateOutputMetrics`
takes the sequential path: no chunk splitting, the task runner is initialised
with concurrency 1, and the whole content is counted as that single task
(whose outcome is returned unchanged). -/
theorem calculateOutputMetrics_sequential_single_task :
    ∀ (content : List Char) (encoding : String) (path : Option String)
      (runTask : OutputMetricsTask → Except String Nat),
    content.length ≤ MIN_CONTENT_LENGTH_FOR_PARALLEL →
    calculateOutputMetrics content encoding path runTask =
      { poolConcurrency := 1
        poolTasks := [{ content := content, encoding := encoding, path := path }]
        result := runTask { content := content, encoding := encoding, path := path } } := by
  intro content encoding path runTask h
  have hn : ¬ MIN_CONTENT_LENGTH_FOR_PARALLEL < content.length := by omega
  simp only [calculateOutputMetrics, if_neg hn]

/-- C2 witness: a one-character content takes the sequential single-task
path. -/
theorem calculateOutputMetrics_sequential_single_task_witness :
    (['x'] : List Char).length ≤ MIN_CONTENT_LENGTH_FOR_PARALLEL ∧
    calculateOutputMetrics ['x'] "o200k_base" (some "out.md") (fun _ => Except.ok 1) =
      { poolConcurrency := 1
        poolTasks := [{ content := ['x'], encoding := "o200k_base", path := some "out.md" }]
        result := Except.ok 1 } :=
  ⟨by decide,
    calculateOutputMetrics_sequential_single_task ['x'] "o200k_base" (some "out.md")
      (fun _ => Except.ok 1) (by decide)⟩

/-- C3: above the threshold the splitting step produces exactly 1000 pool
tasks whose contents are contiguous non-overlapping chunks concatenating back
to the content, all of size `ceil(length / 1000)` except that the last chunk
may be shorter, and the task labels carry the chunk indices 0..999 appended
to the original label when that label is truthy (unlabeled otherwise, as the
source's `path ? ... : undefined`). -/
theorem calculateOutputMetrics_parallel_chunking :
    ∀ (content : List Char) (encoding : String) (path : Option String)
      (runTask : OutputMetricsTask → Except String Nat),
    MIN_CONTENT_LENGTH_FOR_PARALLEL < content.length →
    (calculateOutputMetrics content encoding path runTask).poolTasks.length = 1000 ∧
    ((calculateOutputMetrics content encoding path runTask).poolTasks.map
        OutputMetricsTask.content).flatten = content ∧
    (∀ t ∈ (calculateOutputMetrics content encoding path runTask).poolTasks.dropLast,
        t.content.length = (content.length + CHUNK_SIZE - 1) / CHUNK_SIZE) ∧
    (∀ t ∈ (calculateOutputMetrics content encoding path runTask).poolTasks,
        t.content.length ≤ (content.length + CHUNK_SIZE - 1) / CHUNK_SIZE) ∧
    (calculateOutputMetrics content encoding path runTask).poolTasks.map
        OutputMetricsTask.path =
      (List.range 1000).map
        (fun j => if optTruthy path then some (path.getD "" ++ "-chunk-" ++ toString j)
          else none) := by
  intro content encoding path runTask h
  obtain ⟨hc, h999, h1000⟩ := parallel_chunk_bounds content.length h
  have hpt : (calculateOutputMetrics content encoding path runTask).poolTasks =
      labelTasks encoding path 0
        (sliceLoop ((content.length + CHUNK_SIZE - 1) / CHUNK_SIZE) content) := by
    rw [calculateOutputMetrics_parallel_def content encoding path runTask h]
  have hchlen :
      (sliceLoop ((content.length + CHUNK_SIZE - 1) / CHUNK_SIZE) content).length = 1000 := by
    rw [sliceLoop_length _ hc]
    exact chunk_count_eq content.length h
  refine ⟨?_, ?_, ?_, ?_, ?_⟩
  · rw [hpt, labelTasks_length, hchlen]
  · rw [hpt, labelTasks_map_content, sliceLoop_join _ hc]
  · intro t ht
    rw [hpt] at ht
    have h2 : t.content ∈
        (sliceLoop ((content.length + CHUNK_SIZE - 1) / CHUNK_SIZE) content).dropLast := by
      rw [← labelTasks_map_content encoding path 0
        (sliceLoop ((content.length + CHUNK_SIZE - 1) / CHUNK_SIZE) content),
        ← List.map_dropLast]
      exact List.mem_map_of_mem _ ht
    exact sliceLoop_dropLast_length _ hc content t.content h2
  · intro t ht
    rw [hpt] at ht
    have h2 : t.content ∈
        sliceLoop ((content.length + CHUNK_SIZE - 1) / CHUNK_SIZE) content := by
      rw [← labelTasks_map_content encoding path 0
        (sliceLoop ((content.length + CHUNK_SIZE - 1) / CHUNK_SIZE) content)]
      exact List.mem_map_of_mem _ ht
    exact sliceLoop_length_le _ hc content t.content h2
  · rw [hpt, labelTasks_map_path, hchlen, List.range_eq_range']

/-- C3 witness: a content of 1000001 repeated characters is above the
threshold, so the chunking conclusions apply to it. -/
theorem calculateOutputMetrics_parallel_chunking_witness :
    MIN_CONTENT_LENGTH_FOR_PARALLEL < (List.replicate 1000001 'a').length ∧
    ((calculateOutputMetrics (List.replicate 1000001 'a') "cl100k_base" (some "out.md")
        (fun _ => Except.ok 0)).poolTasks.length = 1000 ∧
      ((calculateOutputMetrics (List.replicate 1000001 'a') "cl100k_base" (some "out.md")
          (fun _ => Except.ok 0)).poolTasks.map
          OutputMetricsTask.content).flatten = List.replicate 1000001 'a' ∧
      (∀ t ∈ (calculateOutputMetrics (List.replicate 1000001 'a') "cl100k_base" (some "out.md")
          (fun _ => Except.ok 0)).poolTasks.dropLast,
        t.content.length =
          ((List.replicate 1000001 'a').length + CHUNK_SIZE - 1) / CHUNK_SIZE) ∧
      (∀ t ∈ (calculateOutputMetrics (List.replicate 1000001 'a') "cl100k_base" (some "out.md")
          (fun _ => Except.ok 0)).poolTasks,
        t.content.length ≤
          ((List.replicate 1000001 'a').length + CHUNK_SIZE - 1) / CHUNK_SIZE) ∧
      (calculateOutputMetrics (List.replicate 1000001 'a') "cl100k_base" (some "out.md")
          (fun _ => Except.ok 0)).poolTasks.map OutputMetricsTask.path =
        (List.range 1000).map
          (fun j => if optTruthy (some "out.md") then
            some ((some "out.md").getD "" ++ "-chunk-" ++ toString j) else none)) := by
  have hlen : MIN_CONTENT_LENGTH_FOR_PARALLEL < (List.replicate 1000001 'a').length := by
    rw [List.length_replicate]
    unfold MIN_CONTENT_LENGTH_FOR_PARALLEL
    omega
  exact ⟨hlen, calculateOutputMetrics_parallel_chunking (List.replicate 1000001 'a')
    "cl100k_base" (some "out.md") (fun _ => Except.ok 0) hlen⟩

/-- C4: on the parallel path the returned integer is the sum of the token
counts of all chunk tasks (all of them awaited and aggregated), and if any
chunk task rejects the whole operation rejects with that rejection — no
partial aggregation. -/
theorem calculateOutputMetrics_parallel_aggregation :
    ∀ (content : List Char) (encoding : String) (path : Option String)
      (runTask : OutputMetricsTask → Except String Nat),
    MIN_CONTENT_LENGTH_FOR_PARALLEL < content.length →
    (∀ counts : List Nat,
      (calculateOutputMetrics content encoding path runTask).poolTasks.mapM runTask =
        Except.ok counts →
      (calculateOutputMetrics content encoding path runTask).result =
        Except.ok counts.sum) ∧
    (∀ e : String,
      (calculateOutputMetrics content encoding path runTask).poolTasks.mapM runTask =
        Except.error e →
      (calculateOutputMetrics content encoding path runTask).result = Except.error e) := by
  intro content encoding path runTask h
  rw [calculateOutputMetrics_parallel_def content encoding path runTask h]
  constructor
  · intro counts hok
    simp only at hok ⊢
    rw [hok]
    show Except.ok (List.foldl (fun sum count => sum + count) 0 counts) = _
    rw [foldl_add_eq_sum]
  · intro e herr
    simp only at herr ⊢
    rw [herr]

/-- C4 witness: the aggregation conclusions apply to an above-threshold
content. -/
theorem calculateOutputMetrics_parallel_aggregation_witness :
    MIN_CONTENT_LENGTH_FOR_PARALLEL < (List.replicate 1000001 'a').length ∧
    ((∀ counts : List Nat,
        (calculateOutputMetrics (List.replicate 1000001 'a') "cl100k_base" none
          (fun _ => (Except.ok 1 : Except String Nat))).poolTasks.mapM (fun _ => (Except.ok 1 : Except String Nat)) =
          Except.ok counts →
        (calculateOutputMetrics (List.replicate 1000001 'a') "cl100k_base" none
          (fun _ => (Except.ok 1 : Except String Nat))).result = Except.ok counts.sum) ∧
      (∀ e : String,
        (calculateOutputMetrics (List.replicate 1000001 'a') "cl100k_base" none
          (fun _ => (Except.ok 1 : Except String Nat))).poolTasks.mapM (fun _ => (Except.ok 1 : Except String Nat)) =
          Except.error e →
        (calculateOutputMetrics (List.replicate 1000001 'a') "cl100k_base" none
          (fun _ => (Except.ok 1 : Except String Nat))).result = Except.error e)) := by
  have hlen : MIN_CONTENT_LENGTH_FOR_PARALLEL < (List.replicate 1000001 'a').length := by
    rw [List.length_replicate]
    unfold MIN_CONTENT_LENGTH_FOR_PARALLEL
    omega
  exact ⟨hlen, calculateOutputMetrics_parallel_aggregation (List.replicate 1000001 'a')
    "cl100k_base" none (fun _ => (Except.ok 1 : Except String Nat)) hlen⟩

/-- C5: `countTokens` is total (the embedded function returns a count, never
an exception): on a successful tokenization it returns the token count with
no diagnostic, and on a tokenization failure it returns 0 and logs a
diagnostic that carries the fragment's label when one is present. -/
theorem countTokens_total_and_fault_absorbing :
    ∀ (encode : List Char → Except String (List Nat)) (content : List Char)
      (filePath : Option String),
    (∀ toks, encode content = .ok toks →
      countTokens encode content filePath = { count := toks.length, logs := [] }) ∧
    (∀ message, encode content = .error message →
      (countTokens encode content filePath).count = 0 ∧
      (∀ p, filePath = some p → p ≠ "" →
        (countTokens encode content filePath).logs =
          ["Failed to count tokens. path: " ++ p ++ ", error: " ++ message]) ∧
      (filePath = none →
        (countTokens encode content filePath).logs =
          ["Failed to count tokens. error: " ++ message])) := by
  intro encode content filePath
  constructor
  · intro toks hok
    simp [countTokens, hok]
  · intro message herr
    refine ⟨?_, ?_, ?_⟩
    · simp [countTokens, herr]
    · intro p hp hne
      subst hp
      simp [countTokens, herr, optTruthy, hne]
    · intro hnone
      subst hnone
      simp [countTokens, herr, optTruthy]

/-- C5 witness: a failing tokenizer yields count 0 and a diagnostic naming
the file path. -/
theorem countTokens_total_and_fault_absorbing_witness :
    (countTokens (fun _ => Except.error "boom") ['x'] (some "f.ts")).count = 0 ∧
    (countTokens (fun _ => Except.error "boom") ['x'] (some "f.ts")).logs =
      ["Failed to count tokens. path: " ++ "f.ts" ++ ", error: " ++ "boom"] :=
  ⟨((countTokens_total_and_fault_absorbing (fun _ => Except.error "boom") ['x']
      (some "f.ts")).2 "boom" rfl).1,
    ((countTokens_total_and_fault_absorbing (fun _ => Except.error "boom") ['x']
      (some "f.ts")).2 "boom" rfl).2.1 "f.ts" rfl (by decide)⟩

/-- Overwriting an existing key leaves the key sequence unchanged. -/
theorem recordSet_map_fst_of_mem (m : List (String × Nat)) (k : String) (v : Nat)
    (h : m.any (fun kv => kv.1 == k) = true) :
    (recordSet m k v).map Prod.fst = m.map Prod.fst := by
  simp only [recordSet, if_pos h]
  rw [List.map_map]
  have hfun : (Prod.fst ∘ fun kv : String × Nat => if kv.1 == k then (k, v) else kv) =
      Prod.fst := by
    funext kv
    by_cases hkv : kv.1 == k
    · simp only [Function.comp_apply, if_pos hkv]
      exact (beq_iff_eq.mp hkv).symm
    · simp only [Function.comp_apply, if_neg hkv]
  rw [hfun]

/-- Setting a fresh key appends it to the key sequence. -/
theorem recordSet_map_fst_of_not_mem (m : List (String × Nat)) (k : String) (v : Nat)
    (h : m.any (fun kv => kv.1 == k) = false) :
    (recordSet m k v).map Prod.fst = m.map Prod.fst ++ [k] := by
  simp only [recordSet, h, Bool.false_eq_true, if_false]
  rw [List.map_append]
  rfl

/-- Key membership after folding the per-file record assignments. -/
theorem foldl_recordSet_mem (val : FileMetrics → Nat) :
    ∀ (ms : List FileMetrics) (acc : List (String × Nat)) (p : String),
    p ∈ (ms.foldl (fun a f => recordSet a f.path (val f)) acc).map Prod.fst ↔
      p ∈ acc.map Prod.fst ∨ p ∈ ms.map FileMetrics.path := by
  intro ms
  induction ms with
  | nil =>
    intro acc p
    simp
  | cons f rest ih =>
    intro acc p
    simp only [List.foldl_cons, List.map_cons, List.mem_cons]
    rw [ih]
    have hrs : ∀ q : String, q ∈ (recordSet acc f.path (val f)).map Prod.fst ↔
        (q ∈ acc.map Prod.fst ∨ q = f.path) := by
      intro q
      by_cases hmem : acc.any (fun kv => kv.1 == f.path) = true
      · rw [recordSet_map_fst_of_mem _ _ _ hmem]
        constructor
        · exact Or.inl
        · rintro (hq | hq)
          · exact hq
          · subst hq
            obtain ⟨kv, hkv, hbe⟩ := List.any_eq_true.mp hmem
            exact beq_iff_eq.mp hbe ▸ List.mem_map_of_mem Prod.fst hkv
      · rw [recordSet_map_fst_of_not_mem _ _ _ (Bool.eq_false_iff.mpr hmem)]
        simp [List.mem_append]
    rw [hrs]
    tauto

/-- Key uniqueness after folding the per-file record assignments. -/
theorem foldl_recordSet_nodup (val : FileMetrics → Nat) :
    ∀ (ms : List FileMetrics) (acc : List (String × Nat)),
    (acc.map Prod.fst).Nodup →
    ((ms.foldl (fun a f => recordSet a f.path (val f)) acc).map Prod.fst).Nodup := by
  intro ms
  induction ms with
  | nil =>
    intro acc h
    simpa using h
  | cons f rest ih =>
    intro acc h
    simp only [List.foldl_cons]
    apply ih
    by_cases hmem : acc.any (fun kv => kv.1 == f.path) = true
    · rw [recordSet_map_fst_of_mem _ _ _ hmem]
      exact h
    · rw [recordSet_map_fst_of_not_mem _ _ _ (Bool.eq_false_iff.mpr hmem)]
      have hnot : f.path ∉ acc.map Prod.fst := by
        intro hin
        obtain ⟨kv, hkv, hfst⟩ := List.mem_map.mp hin
        exact hmem (List.any_eq_true.mpr ⟨kv, hkv, by simp [hfst]⟩)
      simp [List.nodup_append, h, hnot]

/-- The per-file metrics carry the input files' paths, in order. -/
theorem calculateAllFileMetrics_map_path (files : List ProcessedFile)
    (countTok : List Char → Nat) :
    (calculateAllFileMetrics files countTok).map FileMetrics.path =
      files.map ProcessedFile.path := by
  simp [calculateAllFileMetrics, List.map_map]

/-- C6: the report's `totalCharacters` is the output length, `totalFiles` the
number of input records, and the keys of both per-file maps are exactly the
input file paths, each appearing exactly once. -/
theorem calculateMetrics_report_shape :
    ∀ (processedFiles : List ProcessedFile) (output : List Char)
      (countTok : List Char → Nat) (outputTokens : Nat),
    (calculateMetrics processedFiles output countTok outputTokens).totalCharacters =
      output.length ∧
    (calculateMetrics processedFiles output countTok outputTokens).totalFiles =
      processedFiles.length ∧
    ((calculateMetrics processedFiles output countTok outputTokens).fileCharCounts.map
        Prod.fst).Nodup ∧
    ((calculateMetrics processedFiles output countTok outputTokens).fileTokenCounts.map
        Prod.fst).Nodup ∧
    (∀ p, p ∈ (calculateMetrics processedFiles output countTok outputTokens).fileCharCounts.map
        Prod.fst ↔ p ∈ processedFiles.map ProcessedFile.path) ∧
    (∀ p, p ∈ (calculateMetrics processedFiles output countTok outputTokens).fileTokenCounts.map
        Prod.fst ↔ p ∈ processedFiles.map ProcessedFile.path) := by
  intro files output countTok outputTokens
  have hchar : (calculateMetrics files output countTok outputTokens).fileCharCounts =
      (calculateAllFileMetrics files countTok).foldl
        (fun a f => recordSet a f.path f.charCount) [] := rfl
  have htok : (calculateMetrics files output countTok outputTokens).fileTokenCounts =
      (calculateAllFileMetrics files countTok).foldl
        (fun a f => recordSet a f.path f.tokenCount) [] := rfl
  refine ⟨rfl, rfl, ?_, ?_, ?_, ?_⟩
  · rw [hchar]
    exact foldl_recordSet_nodup FileMetrics.charCount _ [] (by simp)
  · rw [htok]
    exact foldl_recordSet_nodup FileMetrics.tokenCount _ [] (by simp)
  · intro p
    rw [hchar, foldl_recordSet_mem FileMetrics.charCount _ [] p,
      calculateAllFileMetrics_map_path]
    simp
  · intro p
    rw [htok, foldl_recordSet_mem FileMetrics.tokenCount _ [] p,
      calculateAllFileMetrics_map_path]
    simp

/-- After the singleton exists, every task is served by that same counter. -/
theorem runWorkerTasks_some_state
    (encodeFam : String → List Char → Except String (List Nat)) (c : TokenCounter) :
    ∀ (ts : List OutputMetricsTask),
    (runWorkerTasks encodeFam (some c) ts).1.map Prod.fst = List.replicate ts.length c := by
  intro ts
  induction ts with
  | nil => rfl
  | cons t rest ih =>
    simp [runWorkerTasks, getTokenCounter, ih, List.replicate_succ]

/-- C8 counterexample: a worker that first serves an "o200k_base" task and
then a "cl100k_base" task uses the counter bound to "o200k_base" for both:
the second task's counter is not bound to that task's requested encoding. -/
theorem getTokenCounter_reuses_first_encoding :
    (runWorkerTasks (fun _ _ => (Except.ok [] : Except String (List Nat))) none
        [{ content := ['x'], encoding := "o200k_base", path := none },
         { content := ['y'], encoding := "cl100k_base", path := none }]).1.map Prod.fst =
      [{ encoding := "o200k_base" }, { encoding := "o200k_base" }] ∧
    ({ encoding := "o200k_base" } : TokenCounter).encoding ≠ "cl100k_base" := by
  decide

/-- C8 amended: inside a worker the Token Counter is created lazily on the
first task and bound to that first task's encoding; every task of the
sequence (the first included) is then served by that single instance, whose
bound encoding never changes, regardless of the encodings later tasks
request. -/
theorem runWorkerTasks_single_counter :
    ∀ (encodeFam : String → List Char → Except String (List Nat))
      (t : OutputMetricsTask) (ts : List OutputMetricsTask),
    (runWorkerTasks encodeFam none (t :: ts)).1.map Prod.fst =
      List.replicate (ts.length + 1) { encoding := t.encoding } := by
  intro encodeFam t ts
  simp [runWorkerTasks, getTokenCounter, runWorkerTasks_some_state, List.replicate_succ]

end Codecrawl
